import Mathlib

/-!
# Stock service (`backend/db.js`, `backend/server.js`)

A shallow embedding of the storage layer (`db.js`) and of the stock endpoints
of the service layer (`server.js`), followed by theorems about them.

Modelling conventions.

* A JavaScript number is a `JsNum`: `NaN`, or a `Num`, which is a finite value
  or one of the two infinities.  A finite double is embedded as the rational it
  denotes and `+` on finite values is exact: rounding and overflow of a finite
  sum are not modelled.  Comparisons are exact in JavaScript as well.
* The `products` table is a list of rows in insertion order together with the
  `AUTOINCREMENT` counter of the table.  A `stock` cell holds a `Num`: SQLite
  turns a bound `NaN` into `NULL`, which the `NOT NULL` column refuses.
* A function that can throw returns an `Option`; `none` is the thrown
  exception, which leaves storage as it was.
-/

namespace SiteVendas

/-! ## JavaScript numbers -/

/-- A number other than `NaN`: what `JSON.parse` can produce and what a numeric
SQLite cell can hold. -/
inductive Num where
  | fin (q : ℚ)
  | posInf
  | negInf
  deriving DecidableEq

/-- A JavaScript value of type `number`. -/
inductive JsNum where
  | num (v : Num)
  | nan
  deriving DecidableEq

/-- The operator `+` on two numbers. -/
def JsNum.add : JsNum → JsNum → JsNum
  | .num (.fin a), .num (.fin b) => .num (.fin (a + b))
  | .num (.fin _), .num .posInf => .num .posInf
  | .num (.fin _), .num .negInf => .num .negInf
  | .num .posInf, .num (.fin _) => .num .posInf
  | .num .negInf, .num (.fin _) => .num .negInf
  | .num .posInf, .num .posInf => .num .posInf
  | .num .negInf, .num .negInf => .num .negInf
  | .num .posInf, .num .negInf => .nan
  | .num .negInf, .num .posInf => .nan
  | .nan, _ => .nan
  | _, .nan => .nan

/-- The test `v < 0` on a number other than `NaN`. -/
def Num.ltZero : Num → Bool
  | .fin q => decide (q < 0)
  | .posInf => false
  | .negInf => true

/-- The test `x < 0`; every comparison with `NaN` is false. -/
def JsNum.ltZero : JsNum → Bool
  | .num v => v.ltZero
  | .nan => false

/-- The test `x >= 0`; every comparison with `NaN` is false. -/
def JsNum.geZero : JsNum → Bool
  | .num (.fin q) => decide (0 ≤ q)
  | .num .posInf => true
  | .num .negInf => false
  | .nan => false

/-- The builtin `Number.isFinite` on a number. -/
def JsNum.isFinite : JsNum → Bool
  | .num (.fin _) => true
  | _ => false

/-! ## Storage layer (`db.js`) -/

/-- A row of the table `products`. -/
structure Product where
  id : Int
  sku : String
  name : String
  stock : Num
  deriving DecidableEq

/-- The table `products`: its rows in insertion order, and the largest id the
`AUTOINCREMENT` key has handed out so far. -/
structure Db where
  rows : List Product
  seq : Nat
  deriving DecidableEq

/-- The condition `WHERE id = ?` with a number bound to the parameter. -/
def matchesId (id : JsNum) (p : Product) : Bool :=
  decide (id = .num (.fin (p.id : ℚ)))

/-- The condition `WHERE sku = ?`. -/
def matchesSku (sku : String) (p : Product) : Bool :=
  decide (p.sku = sku)

/-- One `insert.run([sku, name, stock])`.  The key is one more than the largest
id in use or handed out before; a `sku` already in the table violates the
`UNIQUE` constraint and the statement throws. -/
def insertProduct (db : Db) (r : String × String × Num) : Option Db :=
  if db.rows.any (matchesSku r.1) then none
  else
    let id := max db.seq ((db.rows.map Product.id).foldl max 0).toNat + 1
    some { rows := db.rows ++ [{ id := (id : Int), sku := r.1, name := r.2.1, stock := r.2.2 }],
           seq := id }

/-- The constant `seedProducts` of `seedIfEmpty`. -/
def seedProducts : List (String × String × Num) :=
  [ ("CASE-IPHN", "Capinha para iPhone", .fin 15),
    ("IPHN-15-BLK", "iPhone 15 Preto 128GB", .fin 12),
    ("IPHN-15-PNK", "iPhone 15 Rosa 128GB", .fin 7),
    ("AIRP-3RD", "AirPods (3ª geração)", .fin 20),
    ("APWT-S9", "Apple Watch Series 9", .fin 9),
    ("MGSF-15W", "Carregador MagSafe 15W", .fin 30) ]

/-- The transaction `tx`: the inserts one after the other; when one throws the
whole transaction is rolled back and the exception goes on. -/
def tx (db : Db) (rows : List (String × String × Num)) : Option Db :=
  rows.foldlM insertProduct db

/-- The function `seedIfEmpty`. -/
def seedIfEmpty (db : Db) : Option Db :=
  if db.rows.length = 0 then tx db seedProducts else some db

/-- The function `listProducts`: the rows by ascending id. -/
def listProducts (db : Db) : List Product :=
  db.rows.mergeSort (fun a b => decide (a.id ≤ b.id))

/-- The function `getProductById`: the first row with that id, if any. -/
def getProductById (db : Db) (id : JsNum) : Option Product :=
  db.rows.find? (matchesId id)

/-- The statement `UPDATE products SET stock = ? WHERE id = ?` applied to the
rows, for a stock the column can hold. -/
def updateStock (rows : List Product) (id : JsNum) (stock : Num) : List Product :=
  rows.map (fun p => if matchesId id p then { p with stock := stock } else p)

/-- The function `setStockById`: whether a row was changed.  A `NaN` stock is
bound as `NULL`; the statement then throws when it reaches a row and changes
nothing otherwise. -/
def setStockById (db : Db) (id : JsNum) (stock : JsNum) : Option (Db × Bool) :=
  match stock with
  | .nan => if db.rows.any (matchesId id) then none else some (db, false)
  | .num v => some ({ db with rows := updateStock db.rows id v }, db.rows.any (matchesId id))

/-- What `adjustStockById` returns: `{ ok: true, stock }` or `{ ok: false, error }`. -/
inductive AdjustResult where
  | ok (stock : JsNum)
  | fail (error : String)
  deriving DecidableEq

/-- The function `adjustStockById`. -/
def adjustStockById (db : Db) (id : JsNum) (delta : JsNum) : Option (Db × AdjustResult) :=
  match getProductById db id with
  | none => some (db, .fail "Produto não encontrado")
  | some product =>
    let newStock := JsNum.add (.num product.stock) delta
    if newStock.ltZero then some (db, .fail "Estoque insuficiente")
    else
      match setStockById db id newStock with
      | none => none
      | some (db', _) => some (db', .ok newStock)

/-! ## Service layer (`server.js`) -/

/-- A parsed JSON value.  A number literal too large for a double, such as
`1e999`, is parsed to an infinity; no literal is parsed to `NaN`. -/
inductive Json where
  | null
  | bool (b : Bool)
  | num (v : Num)
  | str (s : String)
  | arr (xs : List Json)
  | obj (kvs : List (String × Json))

/-- The request body `req.body` left by `express.json()`: the fields of the
parsed object (none for an empty, absent or array body, whose named properties
are all `undefined`). -/
abbrev Body := List (String × Json)

/-- The property `req.body[k]`; `none` is `undefined`. -/
def Body.field (body : Body) (k : String) : Option Json :=
  body.lookup k

/-- The test `typeof x === 'number'` on a field, with the number when it holds. -/
def asNumber : Option Json → Option JsNum
  | some (.num v) => some (.num v)
  | _ => none

/-- The payload given to `res.json`. -/
inductive ResBody where
  | error (msg : String)
  | stockView (id : Int) (sku : String) (stock : Num)
  deriving DecidableEq

/-- A response: the status code (200 unless `res.status` was called) and the
payload. -/
structure Response where
  status : Nat
  body : ResBody
  deriving DecidableEq

/-- The reduced view `{ id: product.id, sku: product.sku, stock: product.stock }`
sent with status 200. -/
def stockView (p : Product) : Response :=
  { status := 200, body := .stockView p.id p.sku p.stock }

/-- The handler of `PUT /api/products/:id/stock`; `id` is `Number(req.params.id)`.
The response is `none` when the handler throws. -/
def putStock (db : Db) (id : JsNum) (body : Body) : Db × Option Response :=
  match asNumber (body.field "stock") with
  | none => (db, some { status := 400, body := .error "stock deve ser um número >= 0" })
  | some stock =>
    if stock.ltZero then
      (db, some { status := 400, body := .error "stock deve ser um número >= 0" })
    else
      match setStockById db id stock with
      | none => (db, none)
      | some (db', ok) =>
        if !ok then (db', some { status := 404, body := .error "Produto não encontrado" })
        else (db', (getProductById db' id).map stockView)

/-- The handler of `PATCH /api/products/:id/stock`; `id` is
`Number(req.params.id)`.  The response is `none` when the handler throws. -/
def patchStock (db : Db) (id : JsNum) (body : Body) : Db × Option Response :=
  match asNumber (body.field "delta") with
  | none => (db, some { status := 400, body := .error "delta deve ser um número" })
  | some delta =>
    if !delta.isFinite then
      (db, some { status := 400, body := .error "delta deve ser um número" })
    else
      match adjustStockById db id delta with
      | none => (db, none)
      | some (db', .fail error) => (db', some { status := 400, body := .error error })
      | some (db', .ok _) => (db', (getProductById db' id).map stockView)

/-- A request to one of the two endpoints that write. -/
inductive Request where
  | put (id : JsNum) (body : Body)
  | patch (id : JsNum) (body : Body)

/-- The server handling one request. -/
def handle (db : Db) : Request → Db × Option Response
  | .put id body => putStock db id body
  | .patch id body => patchStock db id body

/-- The server handling requests one after the other: the final storage. -/
def run (db : Db) (reqs : List Request) : Db :=
  reqs.foldl (fun d r => (handle d r).1) db

/-- A fresh database file: the table just created. -/
def freshDb : Db := { rows := [], seq := 0 }

/-- The table after the first boot on a fresh database file. -/
def seededDb : Db :=
  { rows :=
      [ { id := 1, sku := "CASE-IPHN", name := "Capinha para iPhone", stock := .fin 15 },
        { id := 2, sku := "IPHN-15-BLK", name := "iPhone 15 Preto 128GB", stock := .fin 12 },
        { id := 3, sku := "IPHN-15-PNK", name := "iPhone 15 Rosa 128GB", stock := .fin 7 },
        { id := 4, sku := "AIRP-3RD", name := "AirPods (3ª geração)", stock := .fin 20 },
        { id := 5, sku := "APWT-S9", name := "Apple Watch Series 9", stock := .fin 9 },
        { id := 6, sku := "MGSF-15W", name := "Carregador MagSafe 15W", stock := .fin 30 } ],
    seq := 6 }

/-- The table `seedIfEmpty` leaves when it finds no row and the key counter at `n`. -/
def seededFrom (n : Nat) : Db :=
  { rows :=
      [ { id := (n : Int) + 1, sku := "CASE-IPHN", name := "Capinha para iPhone", stock := .fin 15 },
        { id := (n : Int) + 2, sku := "IPHN-15-BLK", name := "iPhone 15 Preto 128GB",
          stock := .fin 12 },
        { id := (n : Int) + 3, sku := "IPHN-15-PNK", name := "iPhone 15 Rosa 128GB",
          stock := .fin 7 },
        { id := (n : Int) + 4, sku := "AIRP-3RD", name := "AirPods (3ª geração)", stock := .fin 20 },
        { id := (n : Int) + 5, sku := "APWT-S9", name := "Apple Watch Series 9", stock := .fin 9 },
        { id := (n : Int) + 6, sku := "MGSF-15W", name := "Carregador MagSafe 15W",
          stock := .fin 30 } ],
    seq := n + 6 }

/-! ## Lemmas on the storage layer -/

theorem matchesId_setStock (id : JsNum) (p : Product) (v : Num) :
    matchesId id { p with stock := v } = matchesId id p := rfl

theorem find?_updateStock (rows : List Product) (id : JsNum) (v : Num) :
    (updateStock rows id v).find? (matchesId id)
      = (rows.find? (matchesId id)).map (fun p => { p with stock := v }) := by
  induction rows with
  | nil => rfl
  | cons p ps ih =>
    by_cases hp : matchesId id p = true
    · simp [updateStock, List.find?, hp, matchesId_setStock]
    · have ih' := ih
      simp only [updateStock] at ih'
      simp [updateStock, List.find?, hp, ih']

theorem any_eq_isSome_find? (rows : List Product) (f : Product → Bool) :
    rows.any f = (rows.find? f).isSome := by
  induction rows with
  | nil => rfl
  | cons p ps ih =>
    by_cases hp : f p = true
    · simp [List.find?, hp]
    · simp [List.find?, hp, ih]

theorem updateStock_of_find?_none (rows : List Product) (id : JsNum) (v : Num)
    (h : rows.find? (matchesId id) = none) : updateStock rows id v = rows := by
  induction rows with
  | nil => rfl
  | cons p ps ih =>
    by_cases hp : matchesId id p = true
    · simp [List.find?, hp] at h
    · simp only [List.find?, hp] at h
      have ih' := ih h
      simp only [updateStock] at ih'
      simp [updateStock, hp, ih']

theorem updateStock_idem (rows : List Product) (id : JsNum) (v : Num) :
    updateStock (updateStock rows id v) id v = updateStock rows id v := by
  induction rows with
  | nil => rfl
  | cons p ps ih =>
    have ih' := ih
    simp only [updateStock] at ih'
    by_cases hp : matchesId id p = true
    · simp [updateStock, hp, matchesId_setStock, ih']
    · simp [updateStock, hp, ih']

theorem any_updateStock (rows : List Product) (id : JsNum) (v : Num) :
    (updateStock rows id v).any (matchesId id) = rows.any (matchesId id) := by
  rw [any_eq_isSome_find?, any_eq_isSome_find?, find?_updateStock]
  cases rows.find? (matchesId id) <;> rfl

theorem add_num_fin (S : Num) (d : ℚ) :
    ∃ v, JsNum.add (.num S) (.num (.fin d)) = .num v := by
  cases S <;> exact ⟨_, rfl⟩

theorem geZero_eq_not_ltZero (v : Num) : JsNum.geZero (.num v) = !JsNum.ltZero (.num v) := by
  cases v with
  | fin q =>
    by_cases hq : q < 0
    · simp [JsNum.geZero, JsNum.ltZero, Num.ltZero, hq]
    · simp [JsNum.geZero, JsNum.ltZero, Num.ltZero, hq, not_lt.mp hq]
  | posInf => rfl
  | negInf => rfl

/-! ## Theorems -/

/-- C5: when a product is found under `id`, `setStockById(id, N)` returns true
and `getProductById(id)` then returns that product with stock `N`; when none is
found, `setStockById` returns false and storage is as before. -/
theorem setStockById_getProductById (db : Db) (id : JsNum) :
    (∀ (p : Product) (N : Num), getProductById db id = some p →
      setStockById db id (.num N) = some ({ db with rows := updateStock db.rows id N }, true) ∧
        getProductById { db with rows := updateStock db.rows id N } id
          = some { p with stock := N }) ∧
    (getProductById db id = none → ∀ stock, setStockById db id stock = some (db, false)) := by
  constructor
  · intro p N h
    simp only [getProductById] at h
    constructor
    · simp [setStockById, any_eq_isSome_find?, h]
    · simp only [getProductById]
      rw [find?_updateStock, h]
      rfl
  · intro h stock
    simp only [getProductById] at h
    cases stock with
    | nan => simp [setStockById, any_eq_isSome_find?, h]
    | num v =>
      simp [setStockById, any_eq_isSome_find?, h, updateStock_of_find?_none db.rows id v h]

/-- Witness of C5 on the seeded table: product 3 is set to 40, and no product
has id 9. -/
theorem setStockById_getProductById_witness :
    (getProductById seededDb (.num (.fin 3))
        = some { id := 3, sku := "IPHN-15-PNK", name := "iPhone 15 Rosa 128GB", stock := .fin 7 } ∧
      setStockById seededDb (.num (.fin 3)) (.num (.fin 40))
        = some ({ seededDb with rows := updateStock seededDb.rows (.num (.fin 3)) (.fin 40) },
            true) ∧
      getProductById { seededDb with rows := updateStock seededDb.rows (.num (.fin 3)) (.fin 40) }
          (.num (.fin 3))
        = some { id := 3, sku := "IPHN-15-PNK", name := "iPhone 15 Rosa 128GB",
                 stock := .fin 40 }) ∧
    (getProductById seededDb (.num (.fin 9)) = none ∧
      setStockById seededDb (.num (.fin 9)) (.num (.fin 40)) = some (seededDb, false)) :=
  ⟨⟨by decide,
      (setStockById_getProductById seededDb (.num (.fin 3))).1
        { id := 3, sku := "IPHN-15-PNK", name := "iPhone 15 Rosa 128GB", stock := .fin 7 }
        (.fin 40) (by decide)⟩,
    ⟨by decide,
      (setStockById_getProductById seededDb (.num (.fin 9))).2 (by decide) (.num (.fin 40))⟩⟩

/-- C6: `setStockById` is idempotent: with a stock value the column can hold the
call returns, and whenever a call returns, the same call on the storage it left
returns the same result and leaves that storage as it is. -/
theorem setStockById_idempotent (db : Db) (id : JsNum) :
    (∀ N : Num, ∃ db1 r, setStockById db id (.num N) = some (db1, r)) ∧
    (∀ stock db1 r, setStockById db id stock = some (db1, r) →
      setStockById db1 id stock = some (db1, r)) := by
  constructor
  · intro N
    exact ⟨_, _, rfl⟩
  · intro stock db1 r h
    cases stock with
    | nan =>
      by_cases hany : db.rows.any (matchesId id) = true
      · simp [setStockById, hany] at h
      · simp only [setStockById, hany] at h
        simp only [Bool.false_eq_true, if_false, Option.some.injEq, Prod.mk.injEq] at h
        obtain ⟨rfl, rfl⟩ := h
        simp [setStockById, hany]
    | num v =>
      simp only [setStockById, Option.some.injEq, Prod.mk.injEq] at h
      obtain ⟨rfl, rfl⟩ := h
      simp [setStockById, updateStock_idem, any_updateStock]

/-- Witness of C6 on the seeded table: product 3 is set to 40 twice. -/
theorem setStockById_idempotent_witness :
    setStockById seededDb (.num (.fin 3)) (.num (.fin 40))
        = some ({ seededDb with rows := updateStock seededDb.rows (.num (.fin 3)) (.fin 40) },
            true) ∧
      setStockById { seededDb with rows := updateStock seededDb.rows (.num (.fin 3)) (.fin 40) }
          (.num (.fin 3)) (.num (.fin 40))
        = some ({ seededDb with rows := updateStock seededDb.rows (.num (.fin 3)) (.fin 40) },
            true) :=
  ⟨by decide,
    (setStockById_idempotent seededDb (.num (.fin 3))).2 (.num (.fin 40))
      { seededDb with rows := updateStock seededDb.rows (.num (.fin 3)) (.fin 40) } true
      (by decide)⟩

theorem forall₂_updateStock (rows : List Product) (id : JsNum) (v : Num) :
    List.Forall₂
      (fun p q => q.id = p.id ∧ q.sku = p.sku ∧ q.name = p.name ∧
        (matchesId id p = false → q.stock = p.stock))
      rows (updateStock rows id v) := by
  induction rows with
  | nil => exact List.Forall₂.nil
  | cons p ps ih =>
    have ih' := ih
    simp only [updateStock] at ih'
    by_cases hp : matchesId id p = true
    · simp only [updateStock, List.map_cons, hp, if_true]
      exact List.Forall₂.cons ⟨rfl, rfl, rfl, by simp [hp]⟩ ih'
    · simp only [updateStock, List.map_cons, hp]
      exact List.Forall₂.cons ⟨rfl, rfl, rfl, fun _ => rfl⟩ ih'

theorem forall₂_self (rows : List Product) (id : JsNum) :
    List.Forall₂
      (fun p q => q.id = p.id ∧ q.sku = p.sku ∧ q.name = p.name ∧
        (matchesId id p = false → q.stock = p.stock))
      rows rows := by
  induction rows with
  | nil => exact List.Forall₂.nil
  | cons p ps ih => exact List.Forall₂.cons ⟨rfl, rfl, rfl, fun _ => rfl⟩ ih

theorem setStockById_frame (db db' : Db) (id stock : JsNum) (r : Bool)
    (h : setStockById db id stock = some (db', r)) :
    db'.seq = db.seq ∧
      List.Forall₂
        (fun p q => q.id = p.id ∧ q.sku = p.sku ∧ q.name = p.name ∧
          (matchesId id p = false → q.stock = p.stock))
        db.rows db'.rows := by
  cases stock with
  | nan =>
    by_cases hany : db.rows.any (matchesId id) = true
    · simp [setStockById, hany] at h
    · simp only [setStockById, hany] at h
      simp only [Bool.false_eq_true, if_false, Option.some.injEq, Prod.mk.injEq] at h
      obtain ⟨rfl, -⟩ := h
      exact ⟨rfl, forall₂_self _ _⟩
  | num v =>
    simp only [setStockById, Option.some.injEq, Prod.mk.injEq] at h
    obtain ⟨rfl, -⟩ := h
    exact ⟨rfl, forall₂_updateStock _ _ _⟩

/-- C9: stock is the only field that changes: after `setStockById(id, stock)` or
`adjustStockById(id, delta)` the table has the same rows in the same order, each
with the id, sku and name it had, each row whose id is not `id` with the stock it
had, and the key counter is as before. -/
theorem stock_only_mutable_field (db : Db) (id : JsNum) :
    (∀ stock db' r, setStockById db id stock = some (db', r) →
      db'.seq = db.seq ∧
        List.Forall₂
          (fun p q => q.id = p.id ∧ q.sku = p.sku ∧ q.name = p.name ∧
            (matchesId id p = false → q.stock = p.stock))
          db.rows db'.rows) ∧
    (∀ delta db' r, adjustStockById db id delta = some (db', r) →
      db'.seq = db.seq ∧
        List.Forall₂
          (fun p q => q.id = p.id ∧ q.sku = p.sku ∧ q.name = p.name ∧
            (matchesId id p = false → q.stock = p.stock))
          db.rows db'.rows) := by
  constructor
  · intro stock db' r h
    exact setStockById_frame db db' id stock r h
  · intro delta db' r h
    simp only [adjustStockById] at h
    cases hget : getProductById db id with
    | none =>
      simp only [hget, Option.some.injEq, Prod.mk.injEq] at h
      obtain ⟨rfl, -⟩ := h
      exact ⟨rfl, forall₂_self _ _⟩
    | some p =>
      simp only [hget] at h
      by_cases hlt : (JsNum.add (.num p.stock) delta).ltZero = true
      · simp only [hlt, if_true, Option.some.injEq, Prod.mk.injEq] at h
        obtain ⟨rfl, -⟩ := h
        exact ⟨rfl, forall₂_self _ _⟩
      · simp only [hlt] at h
        cases hset : setStockById db id (JsNum.add (.num p.stock) delta) with
        | none => simp [hset] at h
        | some res =>
          obtain ⟨db1, ok⟩ := res
          simp only [hset, Bool.false_eq_true, if_false, Option.some.injEq, Prod.mk.injEq] at h
          obtain ⟨rfl, -⟩ := h
          exact setStockById_frame db db1 id _ ok hset

/-- Witness of C9 on the seeded table: product 3 is set to 40, and product 3 is
adjusted by -3. -/
theorem stock_only_mutable_field_witness :
    (setStockById seededDb (.num (.fin 3)) (.num (.fin 40))
        = some ({ seededDb with rows := updateStock seededDb.rows (.num (.fin 3)) (.fin 40) },
            true) ∧
      (6 = seededDb.seq ∧
        List.Forall₂
          (fun p q => q.id = p.id ∧ q.sku = p.sku ∧ q.name = p.name ∧
            (matchesId (.num (.fin 3)) p = false → q.stock = p.stock))
          seededDb.rows (updateStock seededDb.rows (.num (.fin 3)) (.fin 40)))) ∧
    (adjustStockById seededDb (.num (.fin 3)) (.num (.fin (-3)))
        = some ({ seededDb with rows := updateStock seededDb.rows (.num (.fin 3)) (.fin 4) },
            .ok (.num (.fin 4))) ∧
      (6 = seededDb.seq ∧
        List.Forall₂
          (fun p q => q.id = p.id ∧ q.sku = p.sku ∧ q.name = p.name ∧
            (matchesId (.num (.fin 3)) p = false → q.stock = p.stock))
          seededDb.rows (updateStock seededDb.rows (.num (.fin 3)) (.fin 4)))) :=
  ⟨⟨by decide,
      (stock_only_mutable_field seededDb (.num (.fin 3))).1 (.num (.fin 40))
        { seededDb with rows := updateStock seededDb.rows (.num (.fin 3)) (.fin 40) } true
        (by decide)⟩,
    ⟨by norm_num [adjustStockById, getProductById, seededDb, matchesId, JsNum.add, JsNum.ltZero,
        Num.ltZero, setStockById, updateStock],
      (stock_only_mutable_field seededDb (.num (.fin 3))).2 (.num (.fin (-3)))
        { seededDb with rows := updateStock seededDb.rows (.num (.fin 3)) (.fin 4) }
        (.ok (.num (.fin 4)))
        (by norm_num [adjustStockById, getProductById, seededDb, matchesId, JsNum.add,
          JsNum.ltZero, Num.ltZero, setStockById, updateStock])⟩⟩

theorem seedIfEmpty_empty (n : Nat) : seedIfEmpty { rows := [], seq := n } = some (seededFrom n) := by
  simp [seedIfEmpty, tx, seedProducts, insertProduct, matchesSku, seededFrom, List.foldlM]
  omega

theorem seededFrom_rows (n : Nat) :
    (seededFrom n).rows.map (fun p => (p.sku, p.name, p.stock)) = seedProducts ∧
      ((seededFrom n).rows.map Product.sku).Nodup ∧
      ((seededFrom n).rows.map Product.id).Nodup ∧
      ∃ p ∈ (seededFrom n).rows, p.sku = "IPHN-15-PNK" ∧ p.stock = .fin 7 := by
  refine ⟨rfl, ?_, ?_, ?_⟩
  · simp [seededFrom]
  · simp [seededFrom]
  · exact ⟨{ id := (n : Int) + 3, sku := "IPHN-15-PNK", name := "iPhone 15 Rosa 128GB",
             stock := .fin 7 }, by simp [seededFrom], rfl, rfl⟩

/-- C7: on an empty table `seedIfEmpty` inserts the six seed rows, in order, with
pairwise distinct skus and ids, among them `IPHN-15-PNK` with stock 7; on a table
with a row it changes nothing; it never throws, and a second call after the
first changes nothing, so rows or skus without duplicates stay so. -/
theorem seedIfEmpty_idempotent (db : Db) :
    (db.rows = [] →
      ∃ db', seedIfEmpty db = some db' ∧
        db'.rows.map (fun p => (p.sku, p.name, p.stock)) = seedProducts ∧
        (db'.rows.map Product.sku).Nodup ∧ (db'.rows.map Product.id).Nodup ∧
        ∃ p ∈ db'.rows, p.sku = "IPHN-15-PNK" ∧ p.stock = .fin 7) ∧
    (db.rows ≠ [] → seedIfEmpty db = some db) ∧
    (∃ db1, seedIfEmpty db = some db1 ∧ seedIfEmpty db1 = some db1 ∧
      ((db.rows.map Product.sku).Nodup → (db1.rows.map Product.sku).Nodup) ∧
      (db.rows.Nodup → db1.rows.Nodup)) := by
  obtain ⟨rows, n⟩ := db
  have hne : ∀ d : Db, d.rows ≠ [] → seedIfEmpty d = some d := by
    intro d hd
    have : d.rows.length ≠ 0 := fun h => hd (List.length_eq_zero.mp h)
    simp [seedIfEmpty, this]
  refine ⟨?_, hne _, ?_⟩
  · intro h
    simp only at h
    subst h
    exact ⟨seededFrom n, seedIfEmpty_empty n, seededFrom_rows n⟩
  · cases rows with
    | nil =>
      refine ⟨seededFrom n, seedIfEmpty_empty n, hne _ (by simp [seededFrom]), ?_, ?_⟩
      · intro _
        exact (seededFrom_rows n).2.1
      · intro _
        exact List.Nodup.of_map Product.id (seededFrom_rows n).2.2.1
    | cons p ps =>
      exact ⟨_, hne _ (by simp), hne _ (by simp), fun h => h, fun h => h⟩

/-- Witness of C7 on a fresh database file and on the table it is seeded with. -/
theorem seedIfEmpty_idempotent_witness :
    (freshDb.rows = [] ∧
      ∃ db', seedIfEmpty freshDb = some db' ∧
        db'.rows.map (fun p => (p.sku, p.name, p.stock)) = seedProducts ∧
        (db'.rows.map Product.sku).Nodup ∧ (db'.rows.map Product.id).Nodup ∧
        ∃ p ∈ db'.rows, p.sku = "IPHN-15-PNK" ∧ p.stock = .fin 7) ∧
    (seededDb.rows ≠ [] ∧ seedIfEmpty seededDb = some seededDb) :=
  ⟨⟨rfl, (seedIfEmpty_idempotent freshDb).1 rfl⟩,
    ⟨by decide, (seedIfEmpty_idempotent seededDb).2.1 (by decide)⟩⟩

theorem seedIfEmpty_freshDb : seedIfEmpty freshDb = some seededDb := by decide

/-! ## Lemmas on the service layer -/

theorem asNumber_eq_some (x : Option Json) (n : JsNum) (h : asNumber x = some n) :
    ∃ v, x = some (.num v) ∧ n = .num v := by
  unfold asNumber at h
  split at h
  · rename_i v
    exact ⟨v, rfl, (Option.some.inj h).symm⟩
  · exact absurd h (by simp)

theorem geZero_updateStock (rows : List Product) (id : JsNum) (v : Num)
    (hrows : ∀ p ∈ rows, JsNum.geZero (.num p.stock) = true)
    (hv : JsNum.geZero (.num v) = true) :
    ∀ p ∈ updateStock rows id v, JsNum.geZero (.num p.stock) = true := by
  intro p hp
  simp only [updateStock, List.mem_map] at hp
  obtain ⟨q, hq, rfl⟩ := hp
  by_cases hm : matchesId id q = true
  · simpa [hm] using hv
  · simpa [hm] using hrows q hq

theorem geZero_of_not_ltZero (v : Num) (h : JsNum.ltZero (.num v) = false) :
    JsNum.geZero (.num v) = true := by
  rw [geZero_eq_not_ltZero, h]
  rfl

theorem ltZero_of_not_geZero (v : Num) (h : JsNum.geZero (.num v) = false) :
    JsNum.ltZero (.num v) = true := by
  rw [geZero_eq_not_ltZero] at h
  simpa using h

/-- What `putStock` does, by the cases of its guards. -/
theorem putStock_cases (db : Db) (id : JsNum) (body : Body) :
    ((putStock db id body).1 = db ∧
        (putStock db id body).2
          = some { status := 400, body := .error "stock deve ser um número >= 0" } ∧
        ∀ v, body.field "stock" = some (.num v) → JsNum.ltZero (.num v) = true) ∨
    (∃ v, body.field "stock" = some (.num v) ∧ JsNum.ltZero (.num v) = false ∧
      getProductById db id = none ∧ (putStock db id body).1 = db ∧
      (putStock db id body).2 = some { status := 404, body := .error "Produto não encontrado" }) ∨
    (∃ v p, body.field "stock" = some (.num v) ∧ JsNum.ltZero (.num v) = false ∧
      getProductById db id = some p ∧
      (putStock db id body).1 = { db with rows := updateStock db.rows id v } ∧
      (putStock db id body).2 = some (stockView { p with stock := v })) := by
  cases hnum : asNumber (body.field "stock") with
  | none =>
    left
    refine ⟨by simp [putStock, hnum], by simp [putStock, hnum], ?_⟩
    intro v hv
    simp [hv, asNumber] at hnum
  | some stock =>
    obtain ⟨v, hfield, rfl⟩ := asNumber_eq_some _ _ hnum
    by_cases hlt : JsNum.ltZero (.num v) = true
    · left
      refine ⟨by simp [putStock, hnum, hlt], by simp [putStock, hnum, hlt], ?_⟩
      intro w hw
      rw [hfield] at hw
      cases hw
      exact hlt
    · have hlt' : JsNum.ltZero (.num v) = false := by simpa using hlt
      right
      cases hget : getProductById db id with
      | none =>
        left
        have hfind : db.rows.find? (matchesId id) = none := hget
        refine ⟨v, hfield, hlt', rfl, ?_, ?_⟩
        · simp [putStock, hnum, hlt', setStockById, any_eq_isSome_find?, hfind,
            updateStock_of_find?_none db.rows id v hfind]
        · simp [putStock, hnum, hlt', setStockById, any_eq_isSome_find?, hfind]
      | some p =>
        right
        have hfind : db.rows.find? (matchesId id) = some p := hget
        refine ⟨v, p, hfield, hlt', rfl, ?_, ?_⟩
        · simp [putStock, hnum, hlt', setStockById, any_eq_isSome_find?, hfind]
        · simp [putStock, hnum, hlt', setStockById, any_eq_isSome_find?, hfind, getProductById,
            find?_updateStock]

/-- What `patchStock` does, by the cases of its guards. -/
theorem patchStock_cases (db : Db) (id : JsNum) (body : Body) :
    ((patchStock db id body).1 = db ∧
        (patchStock db id body).2
          = some { status := 400, body := .error "delta deve ser um número" } ∧
        ∀ d, body.field "delta" ≠ some (.num (.fin d))) ∨
    (∃ d, body.field "delta" = some (.num (.fin d)) ∧ getProductById db id = none ∧
      (patchStock db id body).1 = db ∧
      (patchStock db id body).2 = some { status := 400, body := .error "Produto não encontrado" }) ∨
    (∃ d p, body.field "delta" = some (.num (.fin d)) ∧ getProductById db id = some p ∧
      JsNum.ltZero (JsNum.add (.num p.stock) (.num (.fin d))) = true ∧
      (patchStock db id body).1 = db ∧
      (patchStock db id body).2 = some { status := 400, body := .error "Estoque insuficiente" }) ∨
    (∃ d p s, body.field "delta" = some (.num (.fin d)) ∧ getProductById db id = some p ∧
      JsNum.add (.num p.stock) (.num (.fin d)) = .num s ∧ JsNum.ltZero (.num s) = false ∧
      (patchStock db id body).1 = { db with rows := updateStock db.rows id s } ∧
      (patchStock db id body).2 = some (stockView { p with stock := s })) := by
  cases hnum : asNumber (body.field "delta") with
  | none =>
    left
    refine ⟨by simp [patchStock, hnum], by simp [patchStock, hnum], ?_⟩
    intro d hd
    simp [hd, asNumber] at hnum
  | some delta =>
    obtain ⟨v, hfield, rfl⟩ := asNumber_eq_some _ _ hnum
    cases v with
    | posInf =>
      left
      refine ⟨by simp [patchStock, hnum, JsNum.isFinite],
        by simp [patchStock, hnum, JsNum.isFinite], ?_⟩
      intro d hd
      rw [hfield] at hd
      cases hd
    | negInf =>
      left
      refine ⟨by simp [patchStock, hnum, JsNum.isFinite],
        by simp [patchStock, hnum, JsNum.isFinite], ?_⟩
      intro d hd
      rw [hfield] at hd
      cases hd
    | fin d =>
      right
      cases hget : getProductById db id with
      | none =>
        left
        exact ⟨d, hfield, rfl, by simp [patchStock, hnum, JsNum.isFinite, adjustStockById, hget],
          by simp [patchStock, hnum, JsNum.isFinite, adjustStockById, hget]⟩
      | some p =>
        right
        obtain ⟨s, hs⟩ := add_num_fin p.stock d
        by_cases hlt : JsNum.ltZero (.num s) = true
        · left
          refine ⟨d, p, hfield, rfl, by rw [hs]; exact hlt, ?_, ?_⟩
          · simp [patchStock, hnum, JsNum.isFinite, adjustStockById, hget, hs, hlt]
          · simp [patchStock, hnum, JsNum.isFinite, adjustStockById, hget, hs, hlt]
        · have hlt' : JsNum.ltZero (.num s) = false := by simpa using hlt
          have hfind : db.rows.find? (matchesId id) = some p := hget
          right
          refine ⟨d, p, s, hfield, rfl, hs, hlt', ?_, ?_⟩
          · simp [patchStock, hnum, JsNum.isFinite, adjustStockById, hget, hs, hlt', setStockById]
          · simp [patchStock, hnum, JsNum.isFinite, adjustStockById, hget, hs, hlt', setStockById,
              getProductById, find?_updateStock, hfind]

theorem handle_cases (db : Db) (r : Request) :
    (∃ res, (handle db r).2 = some res ∧ res.status ≠ 200 ∧ (handle db r).1 = db) ∨
    (∃ id v res, JsNum.ltZero (.num v) = false ∧ (handle db r).2 = some res ∧ res.status = 200 ∧
      (handle db r).1 = { db with rows := updateStock db.rows id v }) := by
  cases r with
  | put id body =>
    rcases putStock_cases db id body with ⟨h1, h2, -⟩ | ⟨v, -, -, -, h1, h2⟩ | ⟨v, p, -, hv, -, h1, h2⟩
    · exact Or.inl ⟨_, h2, by decide, h1⟩
    · exact Or.inl ⟨_, h2, by decide, h1⟩
    · exact Or.inr ⟨id, v, _, hv, h2, rfl, h1⟩
  | patch id body =>
    rcases patchStock_cases db id body with
      ⟨h1, h2, -⟩ | ⟨d, -, -, h1, h2⟩ | ⟨d, p, -, -, -, h1, h2⟩ | ⟨d, p, s, -, -, -, hs, h1, h2⟩
    · exact Or.inl ⟨_, h2, by decide, h1⟩
    · exact Or.inl ⟨_, h2, by decide, h1⟩
    · exact Or.inl ⟨_, h2, by decide, h1⟩
    · exact Or.inr ⟨id, s, _, hs, h2, rfl, h1⟩

theorem handle_geZero (db : Db) (r : Request)
    (h : ∀ p ∈ db.rows, JsNum.geZero (.num p.stock) = true) :
    ∀ p ∈ (handle db r).1.rows, JsNum.geZero (.num p.stock) = true := by
  rcases handle_cases db r with ⟨res, -, -, h1⟩ | ⟨id, v, res, hv, -, -, h1⟩
  · rw [h1]
    exact h
  · rw [h1]
    exact geZero_updateStock db.rows id v h (geZero_of_not_ltZero v hv)

theorem run_geZero (reqs : List Request) (db : Db)
    (h : ∀ p ∈ db.rows, JsNum.geZero (.num p.stock) = true) :
    ∀ p ∈ (run db reqs).rows, JsNum.geZero (.num p.stock) = true := by
  induction reqs generalizing db with
  | nil => exact h
  | cons r rs ih => exact ih (handle db r).1 (handle_geZero db r h)

theorem seededDb_geZero : ∀ p ∈ seededDb.rows, JsNum.geZero (.num p.stock) = true := by
  decide

/-- C2: the first boot on a fresh database leaves the seeded table; after any
sequence of PUT and PATCH stock requests on it, with any ids and bodies, every
stock is `>= 0`, and the same holds from any table whose stocks are `>= 0`.
Every request is answered, and one not answered with status 200 leaves storage
as it is; so do a PUT with a negative `stock` and a PATCH with a finite `delta`
that would take the stock of the product below zero. -/
theorem stock_nonneg_invariant :
    seedIfEmpty freshDb = some seededDb ∧
    (∀ reqs : List Request, ∀ p ∈ (run seededDb reqs).rows,
      JsNum.geZero (.num p.stock) = true) ∧
    (∀ (db : Db) (reqs : List Request), (∀ p ∈ db.rows, JsNum.geZero (.num p.stock) = true) →
      ∀ p ∈ (run db reqs).rows, JsNum.geZero (.num p.stock) = true) ∧
    (∀ (db : Db) (r : Request), ∃ res, (handle db r).2 = some res ∧
      (res.status ≠ 200 → (handle db r).1 = db)) ∧
    (∀ (db : Db) (id : JsNum) (body : Body) (v : Num), body.field "stock" = some (.num v) →
      JsNum.geZero (.num v) = false →
      handle db (.put id body)
        = (db, some { status := 400, body := .error "stock deve ser um número >= 0" })) ∧
    (∀ (db : Db) (id : JsNum) (body : Body) (d : ℚ) (p : Product),
      body.field "delta" = some (.num (.fin d)) → getProductById db id = some p →
      JsNum.geZero (JsNum.add (.num p.stock) (.num (.fin d))) = false →
      handle db (.patch id body)
        = (db, some { status := 400, body := .error "Estoque insuficiente" })) := by
  refine ⟨seedIfEmpty_freshDb, fun reqs => run_geZero reqs seededDb seededDb_geZero,
    fun db reqs h => run_geZero reqs db h, ?_, ?_, ?_⟩
  · intro db r
    rcases handle_cases db r with ⟨res, h2, -, h1⟩ | ⟨id, v, res, -, h2, h200, -⟩
    · exact ⟨res, h2, fun _ => h1⟩
    · exact ⟨res, h2, fun hne => absurd h200 hne⟩
  · intro db id body v hfield hneg
    have hlt := ltZero_of_not_geZero v hneg
    rcases putStock_cases db id body with ⟨h1, h2, -⟩ | ⟨w, hw, hw', -⟩ | ⟨w, p, hw, hw', -⟩
    · exact Prod.ext h1 h2
    · rw [hfield] at hw
      cases hw
      rw [hlt] at hw'
      cases hw'
    · rw [hfield] at hw
      cases hw
      rw [hlt] at hw'
      cases hw'
  · intro db id body d p hfield hget hneg
    obtain ⟨s, hs⟩ := add_num_fin p.stock d
    rw [hs] at hneg
    have hlt := ltZero_of_not_geZero s hneg
    rcases patchStock_cases db id body with
      ⟨-, -, h⟩ | ⟨e, -, hnone, -⟩ | ⟨e, q, -, -, -, h1, h2⟩ | ⟨e, q, t, he, hq, ht, ht', -⟩
    · exact absurd hfield (h d)
    · rw [hget] at hnone
      cases hnone
    · exact Prod.ext h1 h2
    · rw [hfield] at he
      cases he
      rw [hget] at hq
      cases hq
      rw [hs] at ht
      cases ht
      rw [hlt] at ht'
      cases ht'

/-- Witness of C2 on the seeded table: a PUT of -1 on product 1 and a PATCH of
-100 on product 3, which holds 7, are refused and change nothing, and the
stocks are `>= 0` after these two requests and a PATCH of -7 on product 3. -/
theorem stock_nonneg_invariant_witness :
    (Body.field [("stock", Json.num (.fin (-1)))] "stock" = some (.num (.fin (-1))) ∧
      JsNum.geZero (.num (.fin (-1))) = false ∧
      handle seededDb (.put (.num (.fin 1)) [("stock", Json.num (.fin (-1)))])
        = (seededDb, some { status := 400, body := .error "stock deve ser um número >= 0" })) ∧
    (Body.field [("delta", Json.num (.fin (-100)))] "delta" = some (.num (.fin (-100))) ∧
      getProductById seededDb (.num (.fin 3))
        = some { id := 3, sku := "IPHN-15-PNK", name := "iPhone 15 Rosa 128GB", stock := .fin 7 } ∧
      JsNum.geZero (JsNum.add (.num (.fin 7)) (.num (.fin (-100)))) = false ∧
      handle seededDb (.patch (.num (.fin 3)) [("delta", Json.num (.fin (-100)))])
        = (seededDb, some { status := 400, body := .error "Estoque insuficiente" })) ∧
    ((∀ p ∈ seededDb.rows, JsNum.geZero (.num p.stock) = true) ∧
      ∀ p ∈ (run seededDb
          [.put (.num (.fin 1)) [("stock", Json.num (.fin (-1)))],
           .patch (.num (.fin 3)) [("delta", Json.num (.fin (-100)))],
           .patch (.num (.fin 3)) [("delta", Json.num (.fin (-7)))]]).rows,
        JsNum.geZero (.num p.stock) = true) :=
  ⟨⟨rfl, by decide,
      stock_nonneg_invariant.2.2.2.2.1 seededDb (.num (.fin 1))
        [("stock", Json.num (.fin (-1)))] (.fin (-1)) rfl (by decide)⟩,
    ⟨rfl, by decide, by norm_num [JsNum.add, JsNum.geZero],
      stock_nonneg_invariant.2.2.2.2.2 seededDb (.num (.fin 3))
        [("delta", Json.num (.fin (-100)))] (-100)
        { id := 3, sku := "IPHN-15-PNK", name := "iPhone 15 Rosa 128GB", stock := .fin 7 }
        rfl (by decide) (by norm_num [JsNum.add, JsNum.geZero])⟩,
    ⟨by decide, stock_nonneg_invariant.2.2.1 seededDb _ (by decide)⟩⟩

/-- C3: on the seeded table, `PATCH /api/products/999999/stock` with the body
`{"delta": 1}` finds no product and is answered with status 400, not 404, the
message `Produto não encontrado` and storage unchanged; the PUT handler answers
the same unknown id with status 404. -/
theorem patchStock_unknown_id_status_400 :
    getProductById seededDb (.num (.fin 999999)) = none ∧
    patchStock seededDb (.num (.fin 999999)) [("delta", Json.num (.fin 1))]
      = (seededDb, some { status := 400, body := .error "Produto não encontrado" }) ∧
    putStock seededDb (.num (.fin 999999)) [("stock", Json.num (.fin 1))]
      = (seededDb, some { status := 404, body := .error "Produto não encontrado" }) := by
  decide

/-- C4: on the seeded table, `PUT /api/products/1/stock` with the body
`{"stock": 1e999}`, whose number is parsed to `Infinity`, is answered with status
200 and the stock of product 1 is overwritten with `Infinity`; the PATCH handler
refuses the same number as `delta` with status 400 and changes nothing. -/
theorem putStock_infinite_stock_accepted :
    JsNum.isFinite (.num .posInf) = false ∧
    setStockById seededDb (.num (.fin 1)) (.num .posInf)
      = some ({ seededDb with rows := updateStock seededDb.rows (.num (.fin 1)) .posInf }, true) ∧
    putStock seededDb (.num (.fin 1)) [("stock", Json.num .posInf)]
      = ({ seededDb with rows := updateStock seededDb.rows (.num (.fin 1)) .posInf },
          some { status := 200, body := .stockView 1 "CASE-IPHN" .posInf }) ∧
    (getProductById (putStock seededDb (.num (.fin 1)) [("stock", Json.num .posInf)]).1
        (.num (.fin 1))).map Product.stock = some .posInf ∧
    (getProductById seededDb (.num (.fin 1))).map Product.stock = some (.fin 15) ∧
    patchStock seededDb (.num (.fin 1)) [("delta", Json.num .posInf)]
      = (seededDb, some { status := 400, body := .error "delta deve ser um número" }) := by
  decide

end SiteVendas
